import Mathlib

/-
Verification of the tarteel reciter-matching engine, shallowly embedded
from lib/audio/python_processor.py and app/api/process-recitation/route.py.

Numeric values are modelled as rationals.  Calls into external libraries
(librosa, fastdtw, numpy linear algebra) are modelled as explicit oracle
parameters or, where a claim needs their behaviour, by a definition whose
doc comment says what it stands for.  Square roots (np.std, np.linalg.norm)
are not rational, so a standard-deviation or norm value is passed as a
parameter characterised by the hypotheses `0 ≤ s` and `s * s = <sum of squares>`.
-/

namespace Tarteel

/-! ### Numeric helpers (numpy scalar reductions on rational lists) -/

/-- Arithmetic mean, as np.mean: sum divided by length.  On the empty list
numpy yields NaN; this model yields 0 (the empty case is never reached on
the code paths the claims are about). -/
def mean (l : List ℚ) : ℚ := l.sum / l.length

/-- Dot product of two vectors, as np.dot on 1-D arrays of equal length. -/
def dot (v1 v2 : List ℚ) : ℚ := (List.zipWith (· * ·) v1 v2).sum

/-- Sum of squares of the entries: the square of the L2 norm
np.linalg.norm.  The norm itself is irrational in general, so theorems
characterise it by a parameter s with 0 ≤ s and s * s = l2normSq v. -/
def l2normSq (v : List ℚ) : ℚ := (v.map (fun x => x * x)).sum

/-- Maximum entry, as np.max on a nonempty array (numpy raises on the
empty array; this model returns 0 there, a case outside every claim). -/
def maxQ : List ℚ → ℚ
  | [] => 0
  | x :: xs => xs.foldl max x

/-- Maximum of a list of naturals (np.max of the pause-length list, which
the code only takes on a nonempty list). -/
def maxN (l : List ℕ) : ℕ := l.foldl max 0

/-- IEEE division as numpy performs it elementwise: dividing by zero does
not produce a real number (0/0 is NaN, x/0 is ±Inf); both non-finite
outcomes are modelled as none. -/
def fpDiv (x s : ℚ) : Option ℚ := if s = 0 then none else some (x / s)

/-! ### Feature-vector assembly (process_audio, lines 73-86)

The extractor outputs that feed the aggregate vector are collected in a
FeatureBundle.  The matrices are lists of rows (feature channels), each row
a time series, exactly the numpy orientation used by the code
(np.mean(..., axis=1) is a per-row mean). -/

structure FeatureBundle where
  mfccs : List (List ℚ)
  chroma : List (List ℚ)
  melSpec : List (List ℚ)
  tempo : List (List ℚ)
  pitchContour : List ℚ
  formants : List (List ℚ)
  pausePatterns : List ℚ
deriving DecidableEq

/-- Line 73-83 of process_audio: the raw concatenated feature vector.
np.std(mfccs, axis=1) and np.std(pitch_contour) are square roots, hence not
rational; their values are the parameters mfccStd (one entry per MFCC row)
and pitchStd.  Everything else is computed from the bundle exactly as the
source concatenates it. -/
def feature_vector (b : FeatureBundle) (mfccStd : List ℚ) (pitchStd : ℚ) : List ℚ :=
  b.mfccs.map mean ++
  mfccStd ++
  b.chroma.map mean ++
  (b.melSpec.map mean).take 20 ++
  (b.tempo.map mean).take 20 ++
  [mean b.pitchContour] ++
  [pitchStd] ++
  b.formants.map mean ++
  [mean b.pausePatterns]

/-- Line 86 of process_audio:
normalized_vector = feature_vector / np.linalg.norm(feature_vector).
The division is NOT guarded; s is the value of np.linalg.norm
(characterised in theorems by 0 ≤ s and s * s = l2normSq v), and each
component goes through IEEE division by s. -/
def normalized_vector (v : List ℚ) (s : ℚ) : List (Option ℚ) :=
  v.map (fun x => fpDiv x s)

/-! ### Pause statistics (extract_pause_patterns, lines 259-303)

The librosa.feature.rms call is external; extract_pause_patterns is
modelled as a function of the rms energy list it returns. -/

/-- Lines 276-290: the boolean pause mask is_pause = (rms < threshold) and
the loop that run-length encodes its consecutive 1-runs, fused into one
traversal of the rms array; cur is the length of the pause run currently
open (current_pause in the source). -/
def pauseRuns (threshold : ℚ) : List ℚ → ℕ → List ℕ
  | [], cur => if 0 < cur then [cur] else []
  | e :: rest, cur =>
    if e < threshold then pauseRuns threshold rest (cur + 1)
    else if 0 < cur then cur :: pauseRuns threshold rest 0
    else pauseRuns threshold rest 0

/-- Lines 292-301: the 4 pause scalars.  std is the value of
np.std(pause_lengths) (irrational in general, passed as a parameter); the
code uses it only when there are at least two pauses. -/
def pauseFeatures (lengths : List ℕ) (std : ℚ) : List ℚ :=
  if lengths = [] then [0, 0, 0, 0]
  else [(lengths.length : ℚ),
        mean (lengths.map (fun n => (n : ℚ))),
        if 1 < lengths.length then std else 0,
        (maxN lengths : ℚ)]

/-- extract_pause_patterns as a function of the rms array: threshold at
0.05 * max(rms) (line 275), frames strictly below it are pauses
(line 276), run-length encode, emit the 4 scalars. -/
def extract_pause_patterns (rms : List ℚ) (std : ℚ) : List ℚ :=
  pauseFeatures (pauseRuns (0.05 * maxQ rms) rms 0) std

/-! ### Pitch contour (extract_pitch_contour, lines 173-203)

librosa.piptrack returns two equal-shape matrices (pitches, magnitudes);
they are modelled column-major: one (pitch column, magnitude column) pair
per analysis frame. -/

/-- np.argmax on a column: index of the first maximal entry. -/
def argmaxAux : List ℚ → ℕ → ℕ → ℚ → ℕ
  | [], _, bi, _ => bi
  | x :: xs, i, bi, bv =>
    if bv < x then argmaxAux xs (i + 1) i x else argmaxAux xs (i + 1) bi bv

/-- np.argmax of a list (0 on the empty list, which numpy rejects;
piptrack columns are never empty). -/
def argmaxIdx : List ℚ → ℕ
  | [] => 0
  | x :: xs => argmaxAux xs 1 0 x

/-- Lines 188-203: per frame take the pitch at the magnitude argmax,
clamp non-positive estimates to 0, and if the result is empty or
identically zero replace it by the single sentinel [0]. -/
def extract_pitch_contour (pitchCols magCols : List (List ℚ)) : List ℚ :=
  let contour := List.zipWith (fun pc mc => pc.getD (argmaxIdx mc) 0) pitchCols magCols
  let clamped := contour.map (fun x => if x ≤ 0 then 0 else x)
  if clamped = [] ∨ ∀ x ∈ clamped, x = 0 then [0] else clamped

/-! ### Segmenter (segment_audio, lines 146-171)

librosa.effects.split (silence detection on the raw buffer) is external:
segment_audio is modelled as a function of the interval list it returns,
with segMean s e standing for np.mean(mfcc(y[s:e], n_mfcc=13), axis=1). -/

/-- Lines 160-169: keep each interval whose sample length strictly exceeds
min_length = sr * 0.5, in order, and emit its cepstral-mean descriptor. -/
def segment_audio (sr : ℕ) (segMean : ℕ → ℕ → List ℚ) :
    List (ℕ × ℕ) → List (List ℚ)
  | [] => []
  | (s, e) :: rest =>
    if ((sr : ℚ)) * (1/2) < (e : ℚ) - (s : ℚ) then
      segMean s e :: segment_audio sr segMean rest
    else
      segment_audio sr segMean rest

/-! ### Similarity engine (calculate_similarity, lines 346-410)

The fastdtw call is external: it is modelled as an oracle
dtwD : List (List ℚ) → List (List ℚ) → Option ℚ giving the DTW distance of
the two (time-major) sequences, with none standing for a raised exception.
Everything around the call (frame subsetting, transposition, the
normalisation of the distance, the weighted combination, the
exception fallback) is embedded from the source. -/

/-- Python slice l[::step]: every step-th element starting at index 0. -/
def everyNth (step : ℕ) : List ℚ → List ℚ
  | [] => []
  | x :: xs => x :: everyNth step (xs.drop (step - 1))
termination_by l => l.length
decreasing_by simp [List.length_drop]; omega

/-- sequence.shape[1] of a row-major matrix: the common row length. -/
def numCols (m : List (List ℚ)) : ℕ :=
  match m with
  | [] => 0
  | r :: _ => r.length

/-- numpy's .T on a rectangular row-major matrix: row j of the transpose
is column j of the matrix. -/
def transposeM (m : List (List ℚ)) : List (List ℚ) :=
  (List.range (numCols m)).map (fun j => m.map (fun r => r.getD j 0))

/-- Lines 382-388: pick every step-th frame of both sequences, with
step = max(1, min(len1, len2) // 100), and transpose so time is the
leading axis.  Returns the pair (seq1_subset.T, seq2_subset.T) handed
to fastdtw. -/
def dtwPrep (s1 s2 : List (List ℚ)) : List (List ℚ) × List (List ℚ) :=
  let step := max 1 (min (numCols s1) (numCols s2) / 100)
  (transposeM (s1.map (everyNth step)), transposeM (s2.map (everyNth step)))

/-- calculate_similarity (lines 346-410).  method is the literal string
argument; sequence1/sequence2 are the optional sequence matrices (none
models Python None).  When the denominator max_len * channels is zero,
Python's float division raises ZeroDivisionError inside the try block and
the except clause returns the cosine value, which the guard reproduces. -/
def calculate_similarity (dtwD : List (List ℚ) → List (List ℚ) → Option ℚ)
    (vector1 vector2 : List ℚ) (method : String)
    (sequence1 sequence2 : Option (List (List ℚ))) : ℚ :=
  let cosine_sim := dot vector1 vector2
  if method = "cosine" ∨ sequence1 = none ∨ sequence2 = none then cosine_sim
  else
    match sequence1, sequence2 with
    | some s1, some s2 =>
      if method = "dtw" ∨ method = "combined" then
        let p := dtwPrep s1 s2
        match dtwD p.1 p.2 with
        | none => cosine_sim
        | some distance =>
          let maxLen := max p.1.length p.2.length
          let channels := numCols p.1
          if maxLen * channels = 0 then cosine_sim
          else
            let dtw_sim := max 0 (1 - distance / ((maxLen : ℚ) * (channels : ℚ)))
            if method = "dtw" then dtw_sim
            else 0.4 * cosine_sim + 0.6 * dtw_sim
      else cosine_sim
    | _, _ => cosine_sim

/-! ### Segment comparison (compare_segments, lines 412-461)

np.linalg.norm of a segment vector is irrational in general, so the norm
is the oracle parameter nrm : List ℚ → ℚ (characterised where a theorem
needs it by 0 ≤ nrm v and nrm v * nrm v = l2normSq v). -/

/-- Lines 440-441: the cosine entry of the similarity matrix,
np.dot(ref/norm(ref), q/norm(q)). -/
def segPairSim (nrm : List ℚ → ℚ) (r q : List ℚ) : ℚ :=
  dot (r.map (fun x => x / nrm r)) (q.map (fun x => x / nrm q))

/-- Lines 448-454: scan the reference indices in order and keep the best
unused one with similarity strictly above the running best, which starts
at -1.  Returns (best_sim, best_idx), best_idx = -1 when nothing beat -1. -/
def bestUnused (col : List ℚ) (used : List ℕ) : ℚ × ℤ :=
  (List.range col.length).foldl
    (fun b i => if i ∉ used ∧ b.1 < col.getD i 0 then (col.getD i 0, (i : ℤ)) else b)
    (-1, -1)

/-- Lines 444-458: the greedy first-come-first-served matching loop over
the query segments; cols lists, per query segment, the column of
similarities against every reference segment. -/
def greedyMatch (cols : List (List ℚ)) : List ℚ :=
  (cols.foldl
    (fun (acc : List ℚ × List ℕ) col =>
      let b := bestUnused col acc.2
      if 0 ≤ b.2 then (acc.1 ++ [b.1], acc.2 ++ [b.2.toNat]) else acc)
    ([], [])).1

/-- compare_segments (lines 412-461): empty input on either side gives 0;
the longer list is the reference; greedy matching; mean of the matched
scores, 0 when nothing matched. -/
def compare_segments (nrm : List ℚ → ℚ) (segments1 segments2 : List (List ℚ)) : ℚ :=
  if segments1 = [] ∨ segments2 = [] then 0
  else
    let rq := if segments2.length ≤ segments1.length
              then (segments1, segments2) else (segments2, segments1)
    let cols := rq.2.map (fun q => rq.1.map (fun r => segPairSim nrm r q))
    let sims := greedyMatch cols
    if sims = [] then 0 else mean sims

/-! ### The cascade (two_stage_matcher, lines 463-516) -/

/-- One sample's feature bundle as the matcher consumes it (the dictionary
keys feature_vector, sequence_features, segments). -/
structure Sample where
  feature_vector : List ℚ
  sequence_features : List (List ℚ)
  segments : List (List ℚ)

/-- The matcher's result dictionary.  Fields absent from the stage-1
dictionary are modelled as none. -/
structure MatchResult where
  similarity : ℚ
  cosine_similarity : Option ℚ
  dtw_similarity : Option ℚ
  segment_similarity : Option ℚ
  method : String
  stage : ℕ
deriving DecidableEq

/-- two_stage_matcher (lines 463-516).  Python's
sample.get('segments') truthiness test is nonemptiness of the list. -/
def two_stage_matcher (dtwD : List (List ℚ) → List (List ℚ) → Option ℚ)
    (nrm : List ℚ → ℚ) (sample1 sample2 : Sample) : MatchResult :=
  let cosine_sim :=
    calculate_similarity dtwD sample1.feature_vector sample2.feature_vector "cosine" none none
  if cosine_sim < 0.5 then
    { similarity := cosine_sim, cosine_similarity := none, dtw_similarity := none,
      segment_similarity := none, method := "cosine_only", stage := 1 }
  else
    let combined_sim :=
      calculate_similarity dtwD sample1.feature_vector sample2.feature_vector "combined"
        (some sample1.sequence_features) (some sample2.sequence_features)
    let hasSegs := sample1.segments ≠ [] ∧ sample2.segments ≠ []
    let segment_sim :=
      if hasSegs then compare_segments nrm sample1.segments sample2.segments else 0
    let final_sim :=
      if hasSegs then 0.3 * combined_sim + 0.7 * segment_sim else combined_sim
    { similarity := final_sim,
      cosine_similarity := some cosine_sim,
      dtw_similarity := some combined_sim,
      segment_similarity := if 0 < segment_sim then some segment_sim else none,
      method := "full",
      stage := if 0 < segment_sim then 3 else 2 }

/-! ### Ranking endpoint (process-recitation/route.py, handler.do_POST)

The stored reciter rows and the query vector are the inputs; the
nondeterministic aspect_scores jitter does not affect filtering, sorting
or truncation and is outside the deterministic embedding. -/

/-- One row of the reciters table as the endpoint reads it. -/
structure Reciter where
  id : String
  name : String
  style : String
  feature_vector : List ℚ

/-- One entry of the matches list (without the jittered aspect_scores). -/
structure RankedMatch where
  id : String
  name : String
  style : String
  similarity_score : ℚ
deriving DecidableEq

/-- Descending order on similarity_score, the key of
matches.sort(key=..., reverse=True). -/
def scoreGE (a b : RankedMatch) : Prop := b.similarity_score ≤ a.similarity_score

instance : DecidableRel scoreGE :=
  fun a b => inferInstanceAs (Decidable (b.similarity_score ≤ a.similarity_score))

instance : IsTotal RankedMatch scoreGE :=
  ⟨fun a b => le_total b.similarity_score a.similarity_score⟩

instance : IsTrans RankedMatch scoreGE :=
  ⟨fun _ _ _ hab hbc => le_trans hbc hab⟩

/-- Lines 44-76 of the endpoint: per reciter compute
calculate_similarity(query, stored_vector) with default arguments (method
"combined", no sequences, hence the cosine path), keep scores strictly
above 0.4, sort descending by score, take the first 5. -/
def rankMatches (dtwD : List (List ℚ) → List (List ℚ) → Option ℚ)
    (query : List ℚ) (reciters : List Reciter) : List RankedMatch :=
  let matchedRows := reciters.filterMap (fun r =>
    let similarity := calculate_similarity dtwD query r.feature_vector "combined" none none
    if 0.4 < similarity then
      some { id := r.id, name := r.name, style := r.style, similarity_score := similarity }
    else none)
  (matchedRows.insertionSort scoreGE).take 5

/-! ### Shared lemmas about the embedded definitions -/

theorem l2normSq_map_div (s : ℚ) (v : List ℚ) :
    l2normSq (v.map (fun x => x / s)) = l2normSq v / (s * s) := by
  induction v with
  | nil => simp [l2normSq]
  | cons x xs ih =>
    simp only [l2normSq, List.map_cons, List.sum_cons] at ih ⊢
    rw [div_mul_div_comm, ih, div_add_div_same]

theorem mean_singleton (x : ℚ) : mean [x] = x := by
  simp [mean]

theorem l2normSq_append (a b : List ℚ) : l2normSq (a ++ b) = l2normSq a + l2normSq b := by
  simp [l2normSq]

theorem l2normSq_replicate_zero (n : ℕ) : l2normSq (List.replicate n 0) = 0 := by
  simp [l2normSq]

theorem l2normSq_eq_zero_of_all_zero (v : List ℚ) (hz : ∀ x ∈ v, x = 0) :
    l2normSq v = 0 := by
  refine List.sum_eq_zero ?_
  intro y hy
  obtain ⟨x, hx, rfl⟩ := List.mem_map.1 hy
  rw [hz x hx, mul_zero]

theorem calculate_similarity_cosine_method (dtwD : List (List ℚ) → List (List ℚ) → Option ℚ)
    (v1 v2 : List ℚ) (seq1 seq2 : Option (List (List ℚ))) :
    calculate_similarity dtwD v1 v2 "cosine" seq1 seq2 = dot v1 v2 := by
  simp [calculate_similarity]

theorem calculate_similarity_no_sequences (dtwD : List (List ℚ) → List (List ℚ) → Option ℚ)
    (v1 v2 : List ℚ) (method : String) :
    calculate_similarity dtwD v1 v2 method none none = dot v1 v2 := by
  simp [calculate_similarity]

theorem calculate_similarity_combined_eq (dtwD : List (List ℚ) → List (List ℚ) → Option ℚ)
    (v1 v2 : List ℚ) (s1 s2 : List (List ℚ)) :
    calculate_similarity dtwD v1 v2 "combined" (some s1) (some s2) =
      match dtwD (dtwPrep s1 s2).1 (dtwPrep s1 s2).2 with
      | none => dot v1 v2
      | some distance =>
        if max (dtwPrep s1 s2).1.length (dtwPrep s1 s2).2.length * numCols (dtwPrep s1 s2).1 = 0
        then dot v1 v2
        else 0.4 * dot v1 v2 +
          0.6 * max 0 (1 - distance /
            ((max (dtwPrep s1 s2).1.length (dtwPrep s1 s2).2.length : ℚ) *
             (numCols (dtwPrep s1 s2).1 : ℚ))) := by
  simp [calculate_similarity]

theorem combined_of_dtw_failure (dtwD : List (List ℚ) → List (List ℚ) → Option ℚ)
    (v1 v2 : List ℚ) (s1 s2 : List (List ℚ))
    (h : dtwD (dtwPrep s1 s2).1 (dtwPrep s1 s2).2 = none) :
    calculate_similarity dtwD v1 v2 "combined" (some s1) (some s2) = dot v1 v2 := by
  rw [calculate_similarity_combined_eq, h]

theorem combined_of_dtw_success (dtwD : List (List ℚ) → List (List ℚ) → Option ℚ)
    (v1 v2 : List ℚ) (s1 s2 : List (List ℚ)) (d : ℚ)
    (h : dtwD (dtwPrep s1 s2).1 (dtwPrep s1 s2).2 = some d)
    (hden : max (dtwPrep s1 s2).1.length (dtwPrep s1 s2).2.length * numCols (dtwPrep s1 s2).1 ≠ 0) :
    calculate_similarity dtwD v1 v2 "combined" (some s1) (some s2) =
      0.4 * dot v1 v2 +
      0.6 * max 0 (1 - d /
        ((max (dtwPrep s1 s2).1.length (dtwPrep s1 s2).2.length : ℚ) *
         (numCols (dtwPrep s1 s2).1 : ℚ))) := by
  rw [calculate_similarity_combined_eq, h]
  simp [hden]

theorem two_stage_matcher_full (dtwD : List (List ℚ) → List (List ℚ) → Option ℚ)
    (nrm : List ℚ → ℚ) (s1 s2 : Sample)
    (hcos : ¬ dot s1.feature_vector s2.feature_vector < 0.5) :
    two_stage_matcher dtwD nrm s1 s2 =
      { similarity :=
          if s1.segments ≠ [] ∧ s2.segments ≠ [] then
            0.3 * calculate_similarity dtwD s1.feature_vector s2.feature_vector "combined"
                    (some s1.sequence_features) (some s2.sequence_features) +
            0.7 * compare_segments nrm s1.segments s2.segments
          else
            calculate_similarity dtwD s1.feature_vector s2.feature_vector "combined"
              (some s1.sequence_features) (some s2.sequence_features),
        cosine_similarity := some (dot s1.feature_vector s2.feature_vector),
        dtw_similarity :=
          some (calculate_similarity dtwD s1.feature_vector s2.feature_vector "combined"
                  (some s1.sequence_features) (some s2.sequence_features)),
        segment_similarity :=
          if 0 < (if s1.segments ≠ [] ∧ s2.segments ≠ [] then
                    compare_segments nrm s1.segments s2.segments else 0)
          then some (if s1.segments ≠ [] ∧ s2.segments ≠ [] then
                       compare_segments nrm s1.segments s2.segments else 0)
          else none,
        method := "full",
        stage :=
          if 0 < (if s1.segments ≠ [] ∧ s2.segments ≠ [] then
                    compare_segments nrm s1.segments s2.segments else 0)
          then 3 else 2 } := by
  rw [two_stage_matcher]
  simp only [calculate_similarity_cosine_method]
  rw [if_neg hcos]
  by_cases h : s1.segments ≠ [] ∧ s2.segments ≠ [] <;> simp [h]

/-! ### Claim theorems -/

/-- C1: if the cosine similarity of the two fingerprint vectors is below
0.5, the cascade returns similarity equal to that cosine value with method
"cosine_only" and stage 1, and the result is independent of the DTW oracle,
the norm oracle, the sequence matrices and the segment lists — neither DTW
alignment nor segment comparison is invoked. -/
theorem cosine_short_circuit (dtwD dtwD' : List (List ℚ) → List (List ℚ) → Option ℚ)
    (nrm nrm' : List ℚ → ℚ) (sample1 sample2 : Sample)
    (seq1 seq2 segs1 segs2 : List (List ℚ))
    (h : dot sample1.feature_vector sample2.feature_vector < 0.5) :
    two_stage_matcher dtwD nrm sample1 sample2 =
      { similarity := dot sample1.feature_vector sample2.feature_vector,
        cosine_similarity := none, dtw_similarity := none, segment_similarity := none,
        method := "cosine_only", stage := 1 } ∧
    two_stage_matcher dtwD nrm sample1 sample2 =
      two_stage_matcher dtwD' nrm'
        ⟨sample1.feature_vector, seq1, segs1⟩ ⟨sample2.feature_vector, seq2, segs2⟩ := by
  have h1 : two_stage_matcher dtwD nrm sample1 sample2 =
      { similarity := dot sample1.feature_vector sample2.feature_vector,
        cosine_similarity := none, dtw_similarity := none, segment_similarity := none,
        method := "cosine_only", stage := 1 } := by
    rw [two_stage_matcher]
    simp only [calculate_similarity_cosine_method]
    rw [if_pos h]
  have h2 : two_stage_matcher dtwD' nrm'
      ⟨sample1.feature_vector, seq1, segs1⟩ ⟨sample2.feature_vector, seq2, segs2⟩ =
      { similarity := dot sample1.feature_vector sample2.feature_vector,
        cosine_similarity := none, dtw_similarity := none, segment_similarity := none,
        method := "cosine_only", stage := 1 } := by
    rw [two_stage_matcher]
    simp only [calculate_similarity_cosine_method]
    rw [if_pos h]
  exact ⟨h1, h1.trans h2.symm⟩

theorem cosine_short_circuit_witness :
    dot [(1 : ℚ), 0] [0, 1] < 0.5 ∧
    two_stage_matcher (fun _ _ => some 7) (fun _ => 1)
        ⟨[(1 : ℚ), 0], [[5]], [[2, 3]]⟩ ⟨[0, 1], [[6]], [[4]]⟩ =
      { similarity := dot [(1 : ℚ), 0] [0, 1],
        cosine_similarity := none, dtw_similarity := none, segment_similarity := none,
        method := "cosine_only", stage := 1 } :=
  ⟨by norm_num [dot],
   (cosine_short_circuit (fun _ _ => some 7) (fun _ _ => none) (fun _ => 1) (fun _ => 0)
      ⟨[(1 : ℚ), 0], [[5]], [[2, 3]]⟩ ⟨[0, 1], [[6]], [[4]]⟩ [] [] [] []
      (by norm_num [dot])).1⟩

/-- C4 counterexample: on the all-degenerate bundle the raw concatenated
feature vector is the zero vector and its L2 norm is 0, but the unguarded
division of line 86 produces a vector of non-finite (NaN) components, not
the all-zero fingerprint the claim asserts. -/
theorem norm_zero_guard_cex :
    (0 : ℚ) * 0 =
      l2normSq (feature_vector ⟨[[0]], [[0]], [[0]], [[0]], [0], [[0]], [0]⟩ [0] 0) ∧
    normalized_vector (feature_vector ⟨[[0]], [[0]], [[0]], [[0]], [0], [[0]], [0]⟩ [0] 0) 0 =
      [none, none, none, none, none, none, none, none, none] ∧
    ([none, none, none, none, none, none, none, none, none] : List (Option ℚ)) ≠
      (feature_vector ⟨[[0]], [[0]], [[0]], [[0]], [0], [[0]], [0]⟩ [0] 0).map some := by
  refine ⟨?_, ?_, ?_⟩ <;>
    · norm_num [feature_vector, mean, l2normSq, normalized_vector, fpDiv]
      try simp

/-- C4 amended: the division by the L2 norm is applied without any guard;
when every raw component is zero the norm is 0 and every output component
is the non-finite result of an IEEE division by zero (0/0 = NaN), so the
pipeline does not produce an all-zero fingerprint. -/
theorem norm_zero_unguarded (v : List ℚ) (s : ℚ)
    (hz : ∀ x ∈ v, x = 0) (hs : s * s = l2normSq v) :
    s = 0 ∧ normalized_vector v s = v.map (fun _ => (none : Option ℚ)) := by
  have hzero : s = 0 := by
    have h0 : l2normSq v = 0 := l2normSq_eq_zero_of_all_zero v hz
    have := hs.trans h0
    exact mul_self_eq_zero.1 this
  subst hzero
  exact ⟨rfl, by simp [normalized_vector, fpDiv]⟩

theorem norm_zero_unguarded_witness :
    (0 : ℚ) = 0 ∧ normalized_vector [(0 : ℚ), 0] 0 = [(0 : ℚ), 0].map (fun _ => (none : Option ℚ)) :=
  norm_zero_unguarded [(0 : ℚ), 0] 0 (by simp) (by norm_num [l2normSq])

/-- C5: the raw concatenated feature vector has the fixed dimension
98 = 20 + 20 + 12 + 20 + 20 + 1 + 1 + 3 + 1 whenever the extractor outputs
have their documented row counts (independent of the input's length), and
whenever the raw vector is nonzero the normalised fingerprint has squared
L2 norm exactly 1; the IEEE division model coincides with exact division
since the norm is then nonzero. -/
theorem fingerprint_norm_and_dimension (b : FeatureBundle) (mfccStd : List ℚ) (pitchStd s : ℚ)
    (hmfcc : b.mfccs.length = 20) (hstd : mfccStd.length = 20)
    (hchroma : b.chroma.length = 12) (hmel : 20 ≤ b.melSpec.length)
    (htempo : 20 ≤ b.tempo.length) (hform : b.formants.length = 3)
    (hs : s * s = l2normSq (feature_vector b mfccStd pitchStd))
    (hnz : l2normSq (feature_vector b mfccStd pitchStd) ≠ 0) :
    (feature_vector b mfccStd pitchStd).length = 98 ∧
    l2normSq ((feature_vector b mfccStd pitchStd).map (fun x => x / s)) = 1 ∧
    normalized_vector (feature_vector b mfccStd pitchStd) s =
      ((feature_vector b mfccStd pitchStd).map (fun x => x / s)).map some := by
  have hsne : s ≠ 0 := by
    intro h0
    apply hnz
    rw [← hs, h0, mul_zero]
  refine ⟨?_, ?_, ?_⟩
  · simp only [feature_vector, List.length_append, List.length_map, List.length_take,
      hmfcc, hstd, hchroma, hform, List.length_cons, List.length_nil]
    rw [Nat.min_eq_left hmel, Nat.min_eq_left htempo]
  · rw [l2normSq_map_div, ← hs, div_self (mul_ne_zero hsne hsne)]
  · simp [normalized_vector, fpDiv, hsne]

theorem fingerprint_norm_and_dimension_witness :
    (feature_vector
        ⟨List.replicate 20 [0], List.replicate 12 [0], List.replicate 128 [0],
         List.replicate 384 [0], [0], List.replicate 3 [0], [1, 1, 1, 1]⟩
        (List.replicate 20 0) 0).length = 98 ∧
    l2normSq ((feature_vector
        ⟨List.replicate 20 [0], List.replicate 12 [0], List.replicate 128 [0],
         List.replicate 384 [0], [0], List.replicate 3 [0], [1, 1, 1, 1]⟩
        (List.replicate 20 0) 0).map (fun x => x / 1)) = 1 ∧
    normalized_vector (feature_vector
        ⟨List.replicate 20 [0], List.replicate 12 [0], List.replicate 128 [0],
         List.replicate 384 [0], [0], List.replicate 3 [0], [1, 1, 1, 1]⟩
        (List.replicate 20 0) 0) 1 =
      ((feature_vector
        ⟨List.replicate 20 [0], List.replicate 12 [0], List.replicate 128 [0],
         List.replicate 384 [0], [0], List.replicate 3 [0], [1, 1, 1, 1]⟩
        (List.replicate 20 0) 0).map (fun x => x / 1)).map some := by
  have hl2 : l2normSq (feature_vector
      ⟨List.replicate 20 [0], List.replicate 12 [0], List.replicate 128 [0],
       List.replicate 384 [0], [0], List.replicate 3 [0], [1, 1, 1, 1]⟩
      (List.replicate 20 0) 0) = 1 := by
    have hfv : feature_vector
        ⟨List.replicate 20 [0], List.replicate 12 [0], List.replicate 128 [0],
         List.replicate 384 [0], [0], List.replicate 3 [0], [1, 1, 1, 1]⟩
        (List.replicate 20 0) 0 =
        List.replicate 20 (0 : ℚ) ++ List.replicate 20 0 ++ List.replicate 12 0 ++
        List.replicate 20 0 ++ List.replicate 20 0 ++ [0] ++ [0] ++
        List.replicate 3 0 ++ [1] := by
      simp only [feature_vector, List.map_replicate, List.take_replicate, mean_singleton]
      rw [min_eq_left (by norm_num : (20 : ℕ) ≤ 128),
          min_eq_left (by norm_num : (20 : ℕ) ≤ 384)]
      norm_num [mean]
    rw [hfv]
    simp only [l2normSq_append, l2normSq_replicate_zero]
    norm_num [l2normSq]
  exact fingerprint_norm_and_dimension
    ⟨List.replicate 20 [0], List.replicate 12 [0], List.replicate 128 [0],
     List.replicate 384 [0], [0], List.replicate 3 [0], [1, 1, 1, 1]⟩
    (List.replicate 20 0) 0 1
    (by rw [List.length_replicate]) (by rw [List.length_replicate])
    (by rw [List.length_replicate]) (by rw [List.length_replicate]; norm_num)
    (by rw [List.length_replicate]; norm_num) (by rw [List.length_replicate])
    (by rw [hl2]; norm_num) (by rw [hl2]; norm_num)

/-- C6 counterexample: for the rms energy sequence [1, 0, 0, 1] there is a
single pause of length 2, the extractor emits [1, 2, 0, 2], and the last
component of the raw fingerprint vector is 5/4 — the mean of the whole
4-scalar pause feature array — not the mean pause length 2. -/
theorem pause_mean_cex :
    extract_pause_patterns [1, 0, 0, 1] 0 = [1, 2, 0, 2] ∧
    (feature_vector ⟨[[1]], [[1]], [[1]], [[1]], [1], [[1]],
        extract_pause_patterns [1, 0, 0, 1] 0⟩ [1] 1).getLast? = some (5/4) ∧
    (5 : ℚ)/4 ≠ 2 := by
  have hep : extract_pause_patterns [1, 0, 0, 1] 0 = [1, 2, 0, 2] := by
    norm_num [extract_pause_patterns, pauseRuns, pauseFeatures, maxQ, max_def, mean, maxN]
  refine ⟨hep, ?_, by norm_num⟩
  simp only [feature_vector, ← List.append_assoc]
  rw [List.getLast?_append_cons]
  rw [hep]
  norm_num [mean, List.getLast?]

/-- C6 amended: the pause extractor emits exactly the 4 scalars
[pause count, mean pause length, std of the pause lengths (0 when there
are fewer than 2 pauses), longest pause], and [0, 0, 0, 0] when there is
no pause at all; the last component of the raw fingerprint vector is the
MEAN OF THESE 4 SCALARS (np.mean over the whole pause feature array), not
the mean pause length alone. -/
theorem pause_stats_and_last_component (b : FeatureBundle) (mfccStd : List ℚ)
    (pitchStd : ℚ) (rms : List ℚ) (std : ℚ) :
    (feature_vector b mfccStd pitchStd).getLast? = some (mean b.pausePatterns) ∧
    (extract_pause_patterns rms std).length = 4 ∧
    (pauseRuns (0.05 * maxQ rms) rms 0 = [] →
      extract_pause_patterns rms std = [0, 0, 0, 0]) ∧
    (∀ L : List ℕ, pauseRuns (0.05 * maxQ rms) rms 0 = L → L ≠ [] →
      extract_pause_patterns rms std =
        [(L.length : ℚ), mean (L.map (fun n => (n : ℚ))),
         if 1 < L.length then std else 0, (maxN L : ℚ)]) := by
  refine ⟨?_, ?_, ?_, ?_⟩
  · simp only [feature_vector, ← List.append_assoc]
    rw [List.getLast?_append_cons]
    rfl
  · simp only [extract_pause_patterns, pauseFeatures]
    split <;> simp
  · intro h
    simp [extract_pause_patterns, h, pauseFeatures]
  · intro L hL hne
    simp only [extract_pause_patterns]
    rw [hL]
    simp [pauseFeatures, hne]

theorem pause_stats_and_last_component_witness :
    extract_pause_patterns [1, 0, 1] 0 =
      [((([1] : List ℕ).length : ℚ)), mean (([1] : List ℕ).map (fun n => (n : ℚ))),
       if 1 < ([1] : List ℕ).length then (0 : ℚ) else 0, ((maxN [1] : ℕ) : ℚ)] := by
  have hruns : pauseRuns (0.05 * maxQ [1, 0, 1]) [1, 0, 1] 0 = [1] := by
    norm_num [pauseRuns, maxQ, max_def]
  exact (pause_stats_and_last_component ⟨[[1]], [[1]], [[1]], [[1]], [1], [[1]], [1]⟩
    [1] 1 [1, 0, 1] 0).2.2.2 [1] hruns (List.cons_ne_nil 1 [])

/-- C7 counterexample: at sample rate 22050 a single non-silent interval of
exactly 500 ms (11025 samples) is dropped by the strict comparison
end - start > sr * 0.5, so a region of "at least 500 ms" does not always
yield a segment. -/
theorem segment_boundary_cex :
    ((11025 : ℚ) - (0 : ℚ)) = (22050 : ℚ) * (1/2) ∧
    segment_audio 22050 (fun _ _ => List.replicate 13 0) [(0, 11025)] = [] := by
  constructor
  · norm_num
  · norm_num [segment_audio]

/-- C7 amended: the segmenter emits, in chronological order, one descriptor
per detected interval whose duration STRICTLY exceeds 500 ms (an interval
of exactly 500 ms is dropped); an empty interval list (all-silent buffer)
yields zero segments, a single interval strictly longer than 500 ms yields
exactly one, and the function is total — an empty result is a valid
outcome, not an error. -/
theorem segment_audio_spec (sr : ℕ) (f : ℕ → ℕ → List ℚ) (ivs : List (ℕ × ℕ)) :
    segment_audio sr f ivs =
      (ivs.filter (fun p => decide ((sr : ℚ) * (1/2) < (p.2 : ℚ) - (p.1 : ℚ)))).map
        (fun p => f p.1 p.2) ∧
    segment_audio sr f [] = [] ∧
    (∀ s e : ℕ, (sr : ℚ) * (1/2) < (e : ℚ) - (s : ℚ) →
      segment_audio sr f [(s, e)] = [f s e]) ∧
    (∀ s e : ℕ, ¬ (sr : ℚ) * (1/2) < (e : ℚ) - (s : ℚ) →
      segment_audio sr f [(s, e)] = []) := by
  refine ⟨?_, rfl, ?_, ?_⟩
  · induction ivs with
    | nil => rfl
    | cons p rest ih =>
      obtain ⟨s, e⟩ := p
      simp only [segment_audio, List.filter_cons, decide_eq_true_eq]
      by_cases h : (sr : ℚ) * (1/2) < (e : ℚ) - (s : ℚ)
      · rw [if_pos h, if_pos h, List.map_cons, ih]
      · rw [if_neg h, if_neg h, ih]
  · intro s e h
    simp only [segment_audio]
    rw [if_pos h]
  · intro s e h
    simp only [segment_audio]
    rw [if_neg h]

theorem segment_audio_spec_witness :
    segment_audio 22050 (fun _ _ => List.replicate 13 (0 : ℚ)) [(0, 11026)] =
      [List.replicate 13 (0 : ℚ)] :=
  (segment_audio_spec 22050 (fun _ _ => List.replicate 13 (0 : ℚ)) [(0, 11026)]).2.2.1
    0 11026 (by norm_num)

/-- C9 counterexample: two analysis frames whose clamped pitch estimates are
all zero collapse to the single sentinel [0], so the contour length is 1,
not the number of analysis frames (2). -/
theorem pitch_collapse_cex :
    extract_pitch_contour [[0], [0]] [[1], [1]] = [0] ∧
    (extract_pitch_contour [[0], [0]] [[1], [1]]).length ≠
      ([[(0 : ℚ)], [0]] : List (List ℚ)).length := by
  have h : extract_pitch_contour [[0], [0]] [[1], [1]] = [0] := by
    norm_num [extract_pitch_contour, argmaxIdx, argmaxAux]
  exact ⟨h, by rw [h]; norm_num⟩

/-- C9 amended: the extracted pitch contour is never empty and every entry
is non-negative (non-positive estimates are clamped to zero, not removed);
its length equals the number of analysis frames unless the clamped contour
is empty or identically zero, in which case the extractor replaces it by
the single sentinel [0] of length 1. -/
theorem pitch_contour_spec (pitchCols magCols : List (List ℚ))
    (hlen : magCols.length = pitchCols.length) :
    extract_pitch_contour pitchCols magCols ≠ [] ∧
    (∀ x ∈ extract_pitch_contour pitchCols magCols, 0 ≤ x) ∧
    (¬ ((List.zipWith (fun pc mc => pc.getD (argmaxIdx mc) 0) pitchCols magCols).map
          (fun x => if x ≤ 0 then 0 else x) = [] ∨
        ∀ x ∈ (List.zipWith (fun pc mc => pc.getD (argmaxIdx mc) 0) pitchCols magCols).map
          (fun x => if x ≤ 0 then 0 else x), x = 0) →
      (extract_pitch_contour pitchCols magCols).length = pitchCols.length) ∧
    (((List.zipWith (fun pc mc => pc.getD (argmaxIdx mc) 0) pitchCols magCols).map
          (fun x => if x ≤ 0 then 0 else x) = [] ∨
        ∀ x ∈ (List.zipWith (fun pc mc => pc.getD (argmaxIdx mc) 0) pitchCols magCols).map
          (fun x => if x ≤ 0 then 0 else x), x = 0) →
      extract_pitch_contour pitchCols magCols = [0]) := by
  by_cases hc : (List.zipWith (fun pc mc => pc.getD (argmaxIdx mc) 0) pitchCols magCols).map
      (fun x => if x ≤ 0 then 0 else x) = [] ∨
      ∀ x ∈ (List.zipWith (fun pc mc => pc.getD (argmaxIdx mc) 0) pitchCols magCols).map
        (fun x => if x ≤ 0 then 0 else x), x = 0
  · have hres : extract_pitch_contour pitchCols magCols = [0] := by
      simp only [extract_pitch_contour]
      rw [if_pos hc]
    refine ⟨by rw [hres]; simp, ?_, fun hnc => absurd hc hnc, fun _ => hres⟩
    rw [hres]
    simp
  · have hres : extract_pitch_contour pitchCols magCols =
        (List.zipWith (fun pc mc => pc.getD (argmaxIdx mc) 0) pitchCols magCols).map
          (fun x => if x ≤ 0 then 0 else x) := by
      simp only [extract_pitch_contour]
      rw [if_neg hc]
    refine ⟨?_, ?_, ?_, fun h => absurd h hc⟩
    · rw [hres]
      intro hnil
      exact hc (Or.inl hnil)
    · rw [hres]
      intro x hx
      obtain ⟨y, _, rfl⟩ := List.mem_map.1 hx
      by_cases hy : y ≤ 0
      · simp [hy]
      · simp only [if_neg hy]
        exact le_of_lt (lt_of_not_le hy)
    · intro _
      rw [hres, List.length_map, List.length_zipWith, hlen, min_self]

theorem pitch_contour_spec_witness :
    extract_pitch_contour [[5], [-2]] [[1], [1]] ≠ [] ∧
    (extract_pitch_contour [[5], [-2]] [[1], [1]]).length =
      ([[(5 : ℚ)], [-2]] : List (List ℚ)).length := by
  have h := pitch_contour_spec [[5], [-2]] [[1], [1]] rfl
  refine ⟨h.1, h.2.2.1 ?_⟩
  have hval : (List.zipWith (fun pc mc => pc.getD (argmaxIdx mc) 0)
      [[(5 : ℚ)], [-2]] [[1], [1]]).map (fun x => if x ≤ 0 then 0 else x) = [5, 0] := by
    norm_num [argmaxIdx, argmaxAux]
  rw [hval]
  intro hor
  rcases hor with h1 | h2
  · exact List.cons_ne_nil _ _ h1
  · have h5 := h2 5 (by simp)
    norm_num at h5

/-- C2 counterexample: both samples carry a non-empty segment list, the pair
passes Stage 1, the blend is applied, yet the greedy segment score is the
negative value -3/5, so the code reports stage 2 and a null
segment_similarity — not the terminal stage 3 with a non-null
segment_similarity that the claim asserts for every such pair. -/
theorem stage3_reporting_cex :
    ([[(1 : ℚ), 0]] : List (List ℚ)) ≠ [] ∧
    ([[-(3 : ℚ)/5, 4/5]] : List (List ℚ)) ≠ [] ∧
    (two_stage_matcher (fun _ _ => some 0) (fun _ => 1)
       ⟨[(1 : ℚ), 0], [[0]], [[1, 0]]⟩ ⟨[(1 : ℚ), 0], [[0]], [[-(3 : ℚ)/5, 4/5]]⟩).stage = 2 ∧
    (two_stage_matcher (fun _ _ => some 0) (fun _ => 1)
       ⟨[(1 : ℚ), 0], [[0]], [[1, 0]]⟩ ⟨[(1 : ℚ), 0], [[0]],
         [[-(3 : ℚ)/5, 4/5]]⟩).segment_similarity = none := by
  have hcos : ¬ dot [(1 : ℚ), 0] [1, 0] < 0.5 := by norm_num [dot]
  have hfull := two_stage_matcher_full (fun _ _ => some 0) (fun _ => 1)
    ⟨[(1 : ℚ), 0], [[0]], [[1, 0]]⟩ ⟨[(1 : ℚ), 0], [[0]], [[-(3 : ℚ)/5, 4/5]]⟩ hcos
  have hseg : compare_segments (fun _ => 1) [[(1 : ℚ), 0]] [[-(3 : ℚ)/5, 4/5]] = -(3/5) := by
    norm_num [compare_segments, greedyMatch, bestUnused, segPairSim, dot, mean,
      List.range_succ, List.range_zero]
  have hA : ([[(1 : ℚ), 0]] : List (List ℚ)) ≠ [] ∧
      ([[-(3 : ℚ)/5, 4/5]] : List (List ℚ)) ≠ [] :=
    ⟨List.cons_ne_nil _ _, List.cons_ne_nil _ _⟩
  refine ⟨hA.1, hA.2, ?_, ?_⟩ <;>
    · rw [hfull]
      dsimp only
      simp only [if_pos hA, hseg]
      rw [if_neg (by norm_num : ¬ (0 : ℚ) < -(3/5))]

/-- C2 amended: after Stage 1 passes, if both segment lists are non-empty
the final similarity is always the blend 0.3 * combined +
0.7 * segment_similarity, but the result reports terminal stage 3 with a
non-null segment_similarity only when the greedy segment score is
strictly positive; when that score is ≤ 0 the result reports stage 2 with
a null segment_similarity even though the blend was applied.  If either
segment list is empty the final similarity is the Stage-2 combined value,
segment_similarity is null, and the stage is 2. -/
theorem blend_and_stage_reporting (dtwD : List (List ℚ) → List (List ℚ) → Option ℚ)
    (nrm : List ℚ → ℚ) (s1 s2 : Sample)
    (hcos : ¬ dot s1.feature_vector s2.feature_vector < 0.5) :
    (s1.segments ≠ [] → s2.segments ≠ [] →
      (two_stage_matcher dtwD nrm s1 s2).similarity =
        0.3 * calculate_similarity dtwD s1.feature_vector s2.feature_vector "combined"
                (some s1.sequence_features) (some s2.sequence_features) +
        0.7 * compare_segments nrm s1.segments s2.segments ∧
      (0 < compare_segments nrm s1.segments s2.segments →
        (two_stage_matcher dtwD nrm s1 s2).stage = 3 ∧
        (two_stage_matcher dtwD nrm s1 s2).segment_similarity =
          some (compare_segments nrm s1.segments s2.segments)) ∧
      (compare_segments nrm s1.segments s2.segments ≤ 0 →
        (two_stage_matcher dtwD nrm s1 s2).stage = 2 ∧
        (two_stage_matcher dtwD nrm s1 s2).segment_similarity = none)) ∧
    ((s1.segments = [] ∨ s2.segments = []) →
      (two_stage_matcher dtwD nrm s1 s2).similarity =
        calculate_similarity dtwD s1.feature_vector s2.feature_vector "combined"
          (some s1.sequence_features) (some s2.sequence_features) ∧
      (two_stage_matcher dtwD nrm s1 s2).stage = 2 ∧
      (two_stage_matcher dtwD nrm s1 s2).segment_similarity = none) := by
  rw [two_stage_matcher_full dtwD nrm s1 s2 hcos]
  dsimp only
  constructor
  · intro h1 h2
    have hA : s1.segments ≠ [] ∧ s2.segments ≠ [] := ⟨h1, h2⟩
    refine ⟨?_, fun hpos => ⟨?_, ?_⟩, fun hle => ⟨?_, ?_⟩⟩
    · simp only [if_pos hA]
    · simp only [if_pos hA, if_pos hpos]
    · simp only [if_pos hA, if_pos hpos]
    · simp only [if_pos hA, if_neg (not_lt.2 hle)]
    · simp only [if_pos hA, if_neg (not_lt.2 hle)]
  · intro hor
    have hA : ¬ (s1.segments ≠ [] ∧ s2.segments ≠ []) := by
      rcases hor with h | h <;> simp [h]
    refine ⟨?_, ?_, ?_⟩
    · simp only [if_neg hA]
    · simp only [if_neg hA, if_neg (lt_irrefl (0 : ℚ))]
    · simp only [if_neg hA, if_neg (lt_irrefl (0 : ℚ))]

theorem blend_and_stage_reporting_witness :
    (two_stage_matcher (fun _ _ => some 0) (fun _ => 1)
       ⟨[(1 : ℚ), 0], [[0]], []⟩ ⟨[(1 : ℚ), 0], [[0]], []⟩).stage = 2 ∧
    (two_stage_matcher (fun _ _ => some 0) (fun _ => 1)
       ⟨[(1 : ℚ), 0], [[0]], []⟩ ⟨[(1 : ℚ), 0], [[0]], []⟩).segment_similarity = none :=
  (((blend_and_stage_reporting (fun _ _ => some 0) (fun _ => 1)
      ⟨[(1 : ℚ), 0], [[0]], []⟩ ⟨[(1 : ℚ), 0], [[0]], []⟩
      (by norm_num [dot])).2 (Or.inl rfl)).2.1).symm ▸
    (((blend_and_stage_reporting (fun _ _ => some 0) (fun _ => 1)
      ⟨[(1 : ℚ), 0], [[0]], []⟩ ⟨[(1 : ℚ), 0], [[0]], []⟩
      (by norm_num [dot])).2 (Or.inl rfl)).2)

/-- C3 counterexample: the Stage-1 cosine is 3/5 ≥ 0.5, the DTW oracle fails
on every input, both samples carry the segment [[1, 0]] whose greedy score
is 1, and the cascade's final similarity is 0.3 * (3/5) + 0.7 * 1 = 22/25,
not the Stage-1 cosine 3/5 — so after a DTW failure the returned
similarity is not always the cosine value. -/
theorem dtw_failure_fallback_cex :
    ¬ dot [(1 : ℚ), 0] [3/5, 4/5] < 0.5 ∧
    (two_stage_matcher (fun _ _ => none) (fun _ => 1)
       ⟨[(1 : ℚ), 0], [[0]], [[1, 0]]⟩ ⟨[(3 : ℚ)/5, 4/5], [[0]], [[1, 0]]⟩).similarity ≠
      dot [(1 : ℚ), 0] [3/5, 4/5] := by
  have hcos : ¬ dot [(1 : ℚ), 0] [3/5, 4/5] < 0.5 := by norm_num [dot]
  have hfull := two_stage_matcher_full (fun _ _ => none) (fun _ => 1)
    ⟨[(1 : ℚ), 0], [[0]], [[1, 0]]⟩ ⟨[(3 : ℚ)/5, 4/5], [[0]], [[1, 0]]⟩ hcos
  have hcomb := combined_of_dtw_failure (fun _ _ => none) [(1 : ℚ), 0] [(3 : ℚ)/5, 4/5]
    [[0]] [[0]] rfl
  have hseg : compare_segments (fun _ => 1) [[(1 : ℚ), 0]] [[(1 : ℚ), 0]] = 1 := by
    norm_num [compare_segments, greedyMatch, bestUnused, segPairSim, dot, mean,
      List.range_succ, List.range_zero]
  have hA : ([[(1 : ℚ), 0]] : List (List ℚ)) ≠ [] ∧
      ([[(1 : ℚ), 0]] : List (List ℚ)) ≠ [] :=
    ⟨List.cons_ne_nil _ _, List.cons_ne_nil _ _⟩
  refine ⟨hcos, ?_⟩
  rw [hfull]
  dsimp only
  rw [if_pos hA, hcomb, hseg]
  norm_num [dot]

/-- C3 amended: if the DTW computation fails, no error propagates to the
caller; the Stage-2 combined value degrades to the Stage-1 cosine (the
result's dtw_similarity field equals the cosine), and the cascade's final
similarity equals the cosine exactly when either segment list is empty —
when both samples have segments the blend 0.3 * cosine +
0.7 * segment_similarity is still applied on top of the degraded value. -/
theorem dtw_failure_fallback (dtwD : List (List ℚ) → List (List ℚ) → Option ℚ)
    (nrm : List ℚ → ℚ) (s1 s2 : Sample)
    (hcos : ¬ dot s1.feature_vector s2.feature_vector < 0.5)
    (hfail : dtwD (dtwPrep s1.sequence_features s2.sequence_features).1
                  (dtwPrep s1.sequence_features s2.sequence_features).2 = none) :
    (two_stage_matcher dtwD nrm s1 s2).dtw_similarity =
      some (dot s1.feature_vector s2.feature_vector) ∧
    ((s1.segments = [] ∨ s2.segments = []) →
      (two_stage_matcher dtwD nrm s1 s2).similarity =
        dot s1.feature_vector s2.feature_vector) ∧
    (s1.segments ≠ [] → s2.segments ≠ [] →
      (two_stage_matcher dtwD nrm s1 s2).similarity =
        0.3 * dot s1.feature_vector s2.feature_vector +
        0.7 * compare_segments nrm s1.segments s2.segments) := by
  have hcomb := combined_of_dtw_failure dtwD s1.feature_vector s2.feature_vector
    s1.sequence_features s2.sequence_features hfail
  rw [two_stage_matcher_full dtwD nrm s1 s2 hcos]
  dsimp only
  rw [hcomb]
  refine ⟨rfl, fun hor => ?_, fun h1 h2 => ?_⟩
  · have hA : ¬ (s1.segments ≠ [] ∧ s2.segments ≠ []) := by
      rcases hor with h | h <;> simp [h]
    rw [if_neg hA]
  · rw [if_pos (⟨h1, h2⟩ : s1.segments ≠ [] ∧ s2.segments ≠ [])]

theorem dtw_failure_fallback_witness :
    (two_stage_matcher (fun _ _ => none) (fun _ => 1)
       ⟨[(1 : ℚ), 0], [[0]], []⟩ ⟨[(1 : ℚ), 0], [[0]], []⟩).similarity =
      dot [(1 : ℚ), 0] [(1 : ℚ), 0] :=
  (dtw_failure_fallback (fun _ _ => none) (fun _ => 1)
    ⟨[(1 : ℚ), 0], [[0]], []⟩ ⟨[(1 : ℚ), 0], [[0]], []⟩
    (by norm_num [dot]) rfl).2.1 (Or.inl rfl)

/-- C10: for a pair that reaches Stage 2, the result's dtw_similarity field
holds the combined score 0.4 * cosine + 0.6 * dtw_sim whenever the DTW
computation succeeds (dtw_sim being the normalised alignment score
max(0, 1 - distance / (max_len * channels))), and the plain cosine value
when it fails — never the raw DTW similarity alone. -/
theorem dtw_similarity_combined_field (dtwD : List (List ℚ) → List (List ℚ) → Option ℚ)
    (nrm : List ℚ → ℚ) (s1 s2 : Sample)
    (hcos : ¬ dot s1.feature_vector s2.feature_vector < 0.5) :
    (∀ d : ℚ, dtwD (dtwPrep s1.sequence_features s2.sequence_features).1
        (dtwPrep s1.sequence_features s2.sequence_features).2 = some d →
      max (dtwPrep s1.sequence_features s2.sequence_features).1.length
          (dtwPrep s1.sequence_features s2.sequence_features).2.length *
        numCols (dtwPrep s1.sequence_features s2.sequence_features).1 ≠ 0 →
      (two_stage_matcher dtwD nrm s1 s2).dtw_similarity =
        some (0.4 * dot s1.feature_vector s2.feature_vector +
          0.6 * max 0 (1 - d /
            ((max (dtwPrep s1.sequence_features s2.sequence_features).1.length
                  (dtwPrep s1.sequence_features s2.sequence_features).2.length : ℚ) *
             (numCols (dtwPrep s1.sequence_features s2.sequence_features).1 : ℚ))))) ∧
    (dtwD (dtwPrep s1.sequence_features s2.sequence_features).1
        (dtwPrep s1.sequence_features s2.sequence_features).2 = none →
      (two_stage_matcher dtwD nrm s1 s2).dtw_similarity =
        some (dot s1.feature_vector s2.feature_vector)) := by
  rw [two_stage_matcher_full dtwD nrm s1 s2 hcos]
  dsimp only
  refine ⟨fun d hd hden => ?_, fun hfail => ?_⟩
  · rw [combined_of_dtw_success dtwD s1.feature_vector s2.feature_vector
      s1.sequence_features s2.sequence_features d hd hden]
  · rw [combined_of_dtw_failure dtwD s1.feature_vector s2.feature_vector
      s1.sequence_features s2.sequence_features hfail]

theorem dtw_similarity_combined_field_witness :
    (two_stage_matcher (fun _ _ => some 0) (fun _ => 1)
        ⟨[(1 : ℚ), 0], [[0]], []⟩ ⟨[(1 : ℚ), 0], [[0]], []⟩).dtw_similarity =
      some (0.4 * dot [(1 : ℚ), 0] [(1 : ℚ), 0] +
        0.6 * max 0 (1 - 0 /
          ((max (dtwPrep [[(0 : ℚ)]] [[(0 : ℚ)]]).1.length
                (dtwPrep [[(0 : ℚ)]] [[(0 : ℚ)]]).2.length : ℚ) *
           (numCols (dtwPrep [[(0 : ℚ)]] [[(0 : ℚ)]]).1 : ℚ)))) :=
  (dtw_similarity_combined_field (fun _ _ => some 0) (fun _ => 1)
    ⟨[(1 : ℚ), 0], [[0]], []⟩ ⟨[(1 : ℚ), 0], [[0]], []⟩ (by norm_num [dot])).1 0 rfl
    (by norm_num [dtwPrep, transposeM, numCols, everyNth,
      List.range_succ, List.range_zero])

/-- C8: every entry of the ranking output has similarity score strictly
above 0.4, the output is sorted in descending score order, its length is
at most 5, and an empty candidate list yields an empty output. -/
theorem ranking_properties (dtwD : List (List ℚ) → List (List ℚ) → Option ℚ)
    (query : List ℚ) (reciters : List Reciter) :
    (∀ m ∈ rankMatches dtwD query reciters, 0.4 < m.similarity_score) ∧
    List.Sorted scoreGE (rankMatches dtwD query reciters) ∧
    (rankMatches dtwD query reciters).length ≤ 5 ∧
    rankMatches dtwD query [] = [] := by
  refine ⟨?_, ?_, ?_, rfl⟩
  · intro m hm
    simp only [rankMatches] at hm
    have hm1 := List.mem_of_mem_take hm
    have hm2 := (List.perm_insertionSort scoreGE _).mem_iff.1 hm1
    obtain ⟨r, _, heq⟩ := List.mem_filterMap.1 hm2
    by_cases h : (0.4 : ℚ) <
        calculate_similarity dtwD query r.feature_vector "combined" none none
    · rw [if_pos h] at heq
      cases heq
      exact h
    · rw [if_neg h] at heq
      cases heq
  · show List.Sorted scoreGE (((reciters.filterMap _).insertionSort scoreGE).take 5)
    exact (List.sorted_insertionSort scoreGE _).sublist (List.take_sublist 5 _)
  · exact List.length_take_le 5 _

theorem ranking_properties_witness :
    (0.4 : ℚ) <
      (RankedMatch.mk "r1" "n1" "s1"
        (calculate_similarity (fun _ _ => none) [(1 : ℚ), 0]
          (Reciter.mk "r1" "n1" "s1" [(1 : ℚ), 0]).feature_vector
          "combined" none none)).similarity_score ∧
    (rankMatches (fun _ _ => none) [(1 : ℚ), 0] []).length ≤ 5 := by
  constructor
  · refine (ranking_properties (fun _ _ => none) [(1 : ℚ), 0]
      [Reciter.mk "r1" "n1" "s1" [(1 : ℚ), 0]]).1 _ ?_
    simp only [rankMatches, List.filterMap]
    rw [if_pos (by norm_num [calculate_similarity, dot])]
    simp [List.insertionSort, List.orderedInsert]
  · exact (ranking_properties (fun _ _ => none) [(1 : ℚ), 0] []).2.2.1

end Tarteel
